import Mathlib

/-!
Verification of the chaos-diagnostic analysis pipeline in
src/software/tools/diagnostics/chaos_diagnostic.py.

The embedding models the voltage series as a list of rationals (every float
value is rational); standard deviation and the Fourier magnitudes live in ℝ.
The numpy and scipy library calls are modelled by their documented semantics:
np.correlate in full mode, np.sort, np.argmax, scipy.signal.find_peaks with
its height condition (which keeps peaks of height greater than or equal to
the threshold) and its plateau handling.
-/

set_option allowUnsafeReducibility true in
attribute [semireducible] Rat.mul Rat.add Rat.sub Rat.div Rat.inv Rat.neg Rat.ofScientific Rat.blt Rat.normalize

namespace ChaosDiagnostic

/-- Storage of an unsigned 32-bit ADC code into a numpy int32 slot
(the capture loop keeps raw reads in an array of dtype int32, which wraps
values at or above 2^31 to their two-complement negatives). -/
def toInt32 (c : ℕ) : ℤ := if c < 2 ^ 31 then (c : ℤ) else (c : ℤ) - 2 ^ 32

/-- The numpy expression raw >> 31 on an int32 value: an arithmetic right
shift, that is floor division by 2^31. -/
def shiftRight31 (s : ℤ) : ℤ := Int.fdiv s (2 ^ 31)

/-- Embedding of raw_to_voltage (lines 28-44): mask = (raw >> 31) == 1;
result[mask] = -(ref * 2 - raw * ref / 0x80000000);
result[~mask] = raw * ref / 0x7FFFFFFF. -/
def raw_to_voltage (raw : ℤ) (ref : ℚ) : ℚ :=
  if shiftRight31 raw = 1 then -(ref * 2 - (raw : ℚ) * ref / 0x80000000)
  else (raw : ℚ) * ref / 0x7FFFFFFF

/-- Embedding of np.mean. -/
def npMean (l : List ℚ) : ℚ := l.sum / l.length

/-- Embedding of np.max (the fold starts from the head; numpy errors on an
empty array, callers guarantee at least 1000 samples). -/
def npMax (l : List ℚ) : ℚ := l.foldl max l.headI

/-- Embedding of np.min. -/
def npMin (l : List ℚ) : ℚ := l.foldl min l.headI

/-- Peak-to-peak amplitude p2p = np.max(data) - np.min(data). -/
def p2p (l : List ℚ) : ℚ := npMax l - npMin l

/-- Population variance, the square of np.std. -/
def npVar (l : List ℚ) : ℚ := (l.map (fun x => (x - npMean l) ^ 2)).sum / l.length

/-- Embedding of np.std: the square root of the population variance. -/
noncomputable def npStd (l : List ℚ) : ℝ := Real.sqrt ((npVar l : ℝ))

/-- The mean-centred series data - mean (called data_norm in the source). -/
def dataNorm (d : List ℚ) : List ℚ := d.map (fun x => x - npMean d)

/-- Discrete Fourier transform of a rational series at frequency index k,
the value scipy.fft.fft computes. -/
noncomputable def dft (l : List ℚ) (k : ℕ) : ℂ :=
  ((List.range l.length).map
    (fun j => ((l.getD j 0 : ℚ) : ℂ) *
      Complex.exp (-(2 * (Real.pi : ℂ) * Complex.I * (j : ℂ) * (k : ℂ)) / (l.length : ℂ)))).sum

/-- Embedding of power = 2.0/n * np.abs(yf[:n//2]) with yf = fft(data - mean). -/
noncomputable def powerSpectrum (d : List ℚ) : List ℝ :=
  (List.range (d.length / 2)).map
    (fun k => 2 / (d.length : ℝ) * Complex.abs (dft (dataNorm d) k))

/-- Fold giving np.max over a real list. -/
noncomputable def npMaxR (l : List ℝ) : ℝ := l.foldl max l.headI

/-- Embedding of np.argmax: the first index whose entry attains the maximum. -/
noncomputable def npArgmax (l : List ℝ) : ℕ := l.findIdx (fun x => decide (npMaxR l ≤ x))

/-- dominant_freq = xf[np.argmax(power)] where xf = fftfreq(n, 1/fs)[:n//2],
whose entry k equals k * fs / n. -/
noncomputable def dominant_freq (d : List ℚ) (fs : ℚ) : ℝ :=
  (npArgmax (powerSpectrum d) : ℝ) * (fs : ℝ) / (d.length : ℝ)

/-- Length of the initial run of entries equal to v. -/
def eqRun {α : Type} [DecidableEq α] (v : α) : List α → ℕ
  | [] => 0
  | x :: xs => if x = v then eqRun v xs + 1 else 0

/-- Model of the plateau scan of scipy find_peaks: the last index of the
constant run starting at position l. -/
def plateauEnd {α : Type} [DecidableEq α] [Zero α] (x : List α) (l : ℕ) : ℕ :=
  l + eqRun (x.getD l 0) (x.drop (l + 1))

/-- Model of the local-maxima scan of scipy find_peaks: position l is the
left edge of a peak plateau when it is interior, rises strictly above its
left neighbour, and the constant run it starts falls off strictly on the
right before the end of the list. -/
def isPeakLeftEdge {α : Type} [DecidableEq α] [LinearOrder α] [Zero α] (x : List α) (l : ℕ) : Bool :=
  decide (0 < l) && decide (l < x.length) &&
  decide (x.getD (l - 1) 0 < x.getD l 0) &&
  decide (plateauEnd x l + 1 < x.length) &&
  decide (x.getD (plateauEnd x l + 1) 0 < x.getD l 0)

/-- Heights of all local maxima of x, in positional order. -/
def peakHeights {α : Type} [DecidableEq α] [LinearOrder α] [Zero α] (x : List α) : List α :=
  ((List.range x.length).filter (fun l => isPeakLeftEdge x l)).map (fun l => x.getD l 0)

/-- Embedding of len(find_peaks(x, height=h)[0]): scipy keeps the local
maxima whose height is at least h. -/
def numPeaks {α : Type} [DecidableEq α] [LinearOrder α] [Zero α] (x : List α) (h : α) : ℕ :=
  ((peakHeights x).filter (fun v => decide (h ≤ v))).length

/-- Embedding of len(peaks) with peaks = find_peaks(power, height=np.max(power)*0.1). -/
noncomputable def spectral_peaks (d : List ℚ) : ℕ :=
  numPeaks (powerSpectrum d) (npMaxR (powerSpectrum d) * 0.1)

/-- Embedding of np.sort (ascending). -/
noncomputable def npSortR (l : List ℝ) : List ℝ := l.mergeSort (fun a b => decide (a ≤ b))

/-- Embedding of top3_power = np.sum(np.sort(power)[-3:]) / np.sum(power). -/
noncomputable def top3_power (d : List ℚ) : ℝ :=
  ((npSortR (powerSpectrum d)).drop ((powerSpectrum d).length - 3)).sum / (powerSpectrum d).sum

/-- List lookup at a signed index, 0 outside the list (the zero padding in
the correlation formula). -/
def getQ (l : List ℚ) (i : ℤ) : ℚ := if 0 ≤ i then l.getD i.toNat 0 else 0

/-- Embedding of np.correlate(a, v, mode=full): entry m, for
0 ≤ m ≤ len(a) + len(v) - 2, is the sum over n of a[n + m - (len(v)-1)] * v[n]. -/
def correlateFull (a v : List ℚ) : List ℚ :=
  (List.range (a.length + v.length - 1)).map
    (fun m : ℕ => ((List.range v.length).map
      (fun n : ℕ => getQ a ((n : ℤ) + (m : ℤ) - ((v.length : ℤ) - 1)) * getQ v (n : ℤ))).sum)

/-- max_lag = min(2000, len(data)//4). -/
def max_lag (n : ℕ) : ℕ := min 2000 (n / 4)

/-- autocorr = np.correlate(data_norm, data_norm, 'full')[len(data)-1 : len(data)-1+max_lag]. -/
def autocorrRaw (d : List ℚ) : List ℚ :=
  ((correlateFull (dataNorm d) (dataNorm d)).drop (d.length - 1)).take (max_lag d.length)

/-- autocorr = autocorr / autocorr[0]. -/
def autocorrNorm (d : List ℚ) : List ℚ :=
  (autocorrRaw d).map (fun x => x / (autocorrRaw d).getD 0 0)

/-- decay = np.where(autocorr < 0.5)[0]; decay_len = decay[0] if len(decay) > 0 else max_lag. -/
def decay_len (d : List ℚ) : ℕ :=
  match (autocorrNorm d).findIdx? (fun x => decide (x < 0.5)) with
  | some i => i
  | none => max_lag d.length

/-- Embedding of len(sec_peaks) with sec_peaks = find_peaks(autocorr[10:], height=0.3). -/
def sec_peaks (d : List ℚ) : ℕ := numPeaks ((autocorrNorm d).drop 10) 0.3

/-- Rubric 1, spectral complexity (0-30 points), driven by the peak count. -/
def score_spectral (peaks : ℕ) : ℚ :=
  if peaks < 100 then (peaks : ℚ) / 100 * 15
  else if peaks < 500 then 15 + ((peaks : ℚ) - 100) / 400 * 10
  else if peaks ≤ 2000 then 30
  else max 20 (30 - ((peaks : ℚ) - 2000) / 500 * 5)

/-- Rubric 2, power distribution (0-25 points), driven by the top-3 fraction. -/
noncomputable def score_power (top3 : ℝ) : ℚ :=
  if 0.7 < top3 then 0
  else if 0.1 < top3 then 5
  else if 0.001 ≤ top3 then 25
  else 15

/-- Rubric 3, aperiodicity (0-25 points), driven by the secondary-peak count. -/
def score_autocorr (nsec : ℕ) : ℚ :=
  if nsec = 0 then 25
  else if nsec ≤ 3 then 20
  else if nsec ≤ 7 then 10
  else 0

/-- Rubric 4, dynamic range (0-20 points), driven by the standard deviation. -/
noncomputable def score_dynamic (std : ℝ) : ℝ :=
  if std < 0.05 then std / 0.05 * 5
  else if std < 0.15 then 5 + (std - 0.05) / 0.10 * 10
  else if std ≤ 0.20 then 20
  else if std ≤ 0.25 then 15
  else 10

/-- Tip printed in the strong-chaos tier (70 ≤ total < 85). -/
inductive StrongTip
  | reducePeriodicity
  | increaseComplexity
  | nearlyPerfect
  deriving DecidableEq

/-- Tip printed in the weak-chaos tier (50 ≤ total < 70). -/
inductive WeakTip
  | towardCenter
  | continueAdjusting
  deriving DecidableEq

/-- Tip printed in the periodic tier (20 ≤ total < 50). -/
inductive PeriodicTip
  | turnLeft
  | turnRight
  deriving DecidableEq

/-- The qualitative tier and tuning tip the tool prints. -/
inductive Assessment
  | perfectChaos
  | strongChaos (tip : StrongTip)
  | weakChaos (tip : WeakTip)
  | periodicEdge (tip : PeriodicTip)
  | noChaos
  deriving DecidableEq

/-- Embedding of the assessment block (lines 246-276): tiers evaluated high
to low, with the tier tips exactly as the source branches select them. -/
noncomputable def assessment (total : ℝ) (sAutocorr sSpectral : ℚ) (nsec : ℕ) (domfreq : ℝ) :
    Assessment :=
  if 85 ≤ total then .perfectChaos
  else if 70 ≤ total then
    .strongChaos (if sAutocorr < 20 then .reducePeriodicity
      else if sSpectral < 25 then .increaseComplexity else .nearlyPerfect)
  else if 50 ≤ total then
    .weakChaos (if 5 < nsec then .towardCenter else .continueAdjusting)
  else if 20 ≤ total then
    .periodicEdge (if domfreq < 1000 then .turnLeft else .turnRight)
  else .noChaos

/-- Everything analyze_chaos computes after the weak-signal guard. -/
structure ScoredResult where
  spectral : ℚ
  power : ℚ
  autocorr : ℚ
  dynamic : ℝ
  total : ℝ
  decay : ℕ
  verdict : Assessment

/-- Result of one analysis run: the weak-signal short circuit (score 0,
nothing further computed) or the full scored breakdown. -/
inductive ChaosOutcome
  | weakSignal
  | scored (r : ScoredResult)

/-- Embedding of analyze_chaos (lines 101-279). -/
noncomputable def analyze_chaos (data : List ℚ) (fs : ℚ) : ChaosOutcome :=
  if p2p data < 0.3 then .weakSignal
  else
    let s1 := score_spectral (spectral_peaks data)
    let s2 := score_power (top3_power data)
    let s3 := score_autocorr (sec_peaks data)
    let s4 := score_dynamic (npStd data)
    let total : ℝ := (s1 : ℝ) + (s2 : ℝ) + (s3 : ℝ) + s4
    .scored
      { spectral := s1
        power := s2
        autocorr := s3
        dynamic := s4
        total := total
        decay := decay_len data
        verdict := assessment total s3 s1 (sec_peaks data) (dominant_freq data fs) }

/-- The integer score the function returns: 0 on the weak-signal path,
otherwise the total. -/
noncomputable def chaosScore (data : List ℚ) (fs : ℚ) : ℝ :=
  match analyze_chaos data fs with
  | .weakSignal => 0
  | .scored r => r.total

/-- Spec-side autocorrelation at lag k: the sum over i of
data_norm[i] * data_norm[i+k]. -/
def acf (d : List ℚ) (k : ℕ) : ℚ :=
  (List.zipWith (fun a b => a * b) (dataNorm d) ((dataNorm d).drop k)).sum

/-- Spec-side secondary-peak count: local maxima of the full normalised
curve at lags 11 and beyond whose height is at least 0.3. -/
def specSecPeaks (d : List ℚ) : ℕ :=
  ((List.range (autocorrNorm d).length).filter
    (fun l => decide (11 ≤ l) && isPeakLeftEdge (autocorrNorm d) l &&
      decide ((0.3 : ℚ) ≤ (autocorrNorm d).getD l 0))).length

/-- The count claim C5 asks for as written: height strictly above 0.3. -/
def specSecPeaksStrict (d : List ℚ) : ℕ :=
  ((List.range (autocorrNorm d).length).filter
    (fun l => decide (11 ≤ l) && isPeakLeftEdge (autocorrNorm d) l &&
      decide ((0.3 : ℚ) < (autocorrNorm d).getD l 0))).length

/-- The three largest spectrum bins as the source picks them:
np.sort(power)[-3:]. -/
noncomputable def top3Bins (d : List ℚ) : List ℝ :=
  (npSortR (powerSpectrum d)).drop ((powerSpectrum d).length - 3)

/-- Projection of an outcome onto the four sub-scores and the total. -/
def outcomeScores : ChaosOutcome → Option (ℚ × ℚ × ℚ × ℝ × ℝ)
  | .weakSignal => none
  | .scored r => some (r.spectral, r.power, r.autocorr, r.dynamic, r.total)

/-- Projection of an outcome onto the printed tier and tip. -/
def outcomeVerdict : ChaosOutcome → Option Assessment
  | .weakSignal => none
  | .scored r => some r.verdict

/-- 52-sample series built for the C5 boundary analysis: spikes of 3 at
positions 0 and 11, dips of -2 at positions 30, 32 and 34; its mean is 0,
its zero-lag autocorrelation is 30 and its lag-11 autocorrelation is 9, so
the normalised curve has an exact local maximum of 0.3 at lag 11. -/
def cexSeries : List ℚ :=
  [3, 0, 0, 0, 0, 0, 0, 0, 0, 0, 0, 3, 0, 0, 0, 0, 0, 0, 0, 0, 0, 0, 0, 0, 0, 0,
   0, 0, 0, 0, -2, 0, -2, 0, -2, 0, 0, 0, 0, 0, 0, 0, 0, 0, 0, 0, 0, 0, 0, 0, 0, 0]

/-! ### General helper lemmas -/

theorem foldl_max_const {c a : ℚ} (l : List ℚ) (hl : ∀ x ∈ l, x = c) (ha : a = c) :
    l.foldl max a = c := by
  induction l generalizing a with
  | nil => simpa using ha
  | cons x xs ih =>
      have hx : x = c := hl x (by simp)
      exact ih (fun y hy => hl y (by simp [hy])) (by simp [ha, hx])

theorem foldl_min_const {c a : ℚ} (l : List ℚ) (hl : ∀ x ∈ l, x = c) (ha : a = c) :
    l.foldl min a = c := by
  induction l generalizing a with
  | nil => simpa using ha
  | cons x xs ih =>
      have hx : x = c := hl x (by simp)
      exact ih (fun y hy => hl y (by simp [hy])) (by simp [ha, hx])

theorem p2p_const {d : List ℚ} (h : ∃ c, ∀ x ∈ d, x = c) : p2p d = 0 := by
  rcases h with ⟨c, hc⟩
  cases d with
  | nil => simp [p2p, npMax, npMin]
  | cons x xs =>
      have hx : (x :: xs).headI = c := by simpa using hc x (by simp)
      have h1 : npMax (x :: xs) = c := foldl_max_const _ hc hx
      have h2 : npMin (x :: xs) = c := foldl_min_const _ hc hx
      simp [p2p, h1, h2]

/-! ### Rubric range lemmas -/

theorem score_spectral_bounds (p : ℕ) : 0 ≤ score_spectral p ∧ score_spectral p ≤ 30 := by
  unfold score_spectral
  split_ifs with h1 h2 h3
  · have hp : (p : ℚ) ≤ 100 := by exact_mod_cast h1.le
    have hp0 : (0 : ℚ) ≤ (p : ℚ) := Nat.cast_nonneg p
    constructor
    · positivity
    · rw [div_mul_eq_mul_div, div_le_iff₀ (by norm_num)]
      linarith
  · have h1q : (100 : ℚ) ≤ (p : ℚ) := by exact_mod_cast not_lt.mp h1
    have h2q : (p : ℚ) ≤ 500 := by exact_mod_cast h2.le
    constructor
    · have h : (0:ℚ) ≤ ((p:ℚ) - 100) / 400 * 10 :=
        mul_nonneg (div_nonneg (by linarith) (by norm_num)) (by norm_num)
      linarith
    · have h : ((p:ℚ) - 100) / 400 * 10 ≤ 15 := by
        rw [div_mul_eq_mul_div, div_le_iff₀ (by norm_num)]
        linarith
      linarith
  · norm_num
  · have h3q : (2000 : ℚ) ≤ (p : ℚ) := by
      exact_mod_cast (not_le.mp h3).le
    constructor
    · exact le_trans (by norm_num) (le_max_left 20 _)
    · apply max_le (by norm_num)
      have h : (0:ℚ) ≤ ((p:ℚ) - 2000) / 500 * 5 :=
        mul_nonneg (div_nonneg (by linarith) (by norm_num)) (by norm_num)
      linarith

theorem score_power_bounds (t : ℝ) : 0 ≤ score_power t ∧ score_power t ≤ 25 := by
  unfold score_power
  split_ifs <;> norm_num

theorem score_autocorr_bounds (n : ℕ) : 0 ≤ score_autocorr n ∧ score_autocorr n ≤ 25 := by
  unfold score_autocorr
  split_ifs <;> norm_num

theorem score_dynamic_bounds {s : ℝ} (hs : 0 ≤ s) :
    0 ≤ score_dynamic s ∧ score_dynamic s ≤ 20 := by
  unfold score_dynamic
  split_ifs with h1 h2 h3 h4
  · constructor
    · positivity
    · rw [div_mul_eq_mul_div, div_le_iff₀ (by norm_num)]
      nlinarith
  · have h1q : (0.05 : ℝ) ≤ s := not_lt.mp h1
    constructor
    · have h : (0:ℝ) ≤ (s - 0.05) / 0.10 * 10 :=
        mul_nonneg (div_nonneg (by linarith) (by norm_num)) (by norm_num)
      linarith
    · have h : (s - 0.05) / 0.10 * 10 ≤ 15 := by
        rw [div_mul_eq_mul_div, div_le_iff₀ (by norm_num)]
        nlinarith
      linarith
  · norm_num
  · norm_num
  · norm_num

/-! ### Claim theorems -/

/-- Claim C9: on the branch that executes for non-negative codes, code 0 gives
exactly 0 V and code 0x7FFFFFFF gives exactly ref, for every reference voltage. -/
theorem C9_positive_branch_endpoints (ref : ℚ) :
    raw_to_voltage (toInt32 0) ref = 0 ∧ raw_to_voltage (toInt32 0x7FFFFFFF) ref = ref := by
  constructor
  · have h0 : toInt32 0 = 0 := by decide
    rw [h0, raw_to_voltage]
    norm_num [shiftRight31]
  · have h1 : toInt32 0x7FFFFFFF = 2 ^ 31 - 1 := by decide
    have h2 : shiftRight31 (2 ^ 31 - 1) = 0 := by decide
    rw [h1, raw_to_voltage, if_neg (by rw [h2]; norm_num)]
    push_cast
    rw [mul_comm, mul_div_assoc, div_self (by norm_num), mul_one]

/-- Claim C4, counterexample: the raw reads are stored in an int32 array, so the
numpy shift raw >> 31 is arithmetic and yields 0 or -1, never 1; the sign-bit
branch is dead. At code 0x80000000 the function therefore returns
-2^31 * ref / (2^31 - 1), not the -(2 ref - code ref / 2^31) = -ref of the
claimed branch formula and not the -2 ref the claim names at this code. -/
theorem C4_counterexample :
    shiftRight31 (toInt32 0x80000000) ≠ 1 ∧
    raw_to_voltage (toInt32 0x80000000) 5 = -(2 ^ 31 : ℚ) * 5 / (2 ^ 31 - 1) ∧
    raw_to_voltage (toInt32 0x80000000) 5 ≠ -(5 * 2 - (0x80000000 : ℚ) * 5 / 0x80000000) ∧
    raw_to_voltage (toInt32 0x80000000) 5 ≠ -(2 * 5) := by
  exact ⟨by decide, by decide, by decide, by decide⟩

/-- Claim C4 as amended: for every 32-bit code with the sign bit set, the stored
int32 value is negative, the mask (raw >> 31) == 1 does not fire (indeed it fires
for no int32 value, so the mask branch is empty and the complement branch takes
every code), and the converter returns signed(code) * ref / (2^31 - 1). -/
theorem C4_amended_dead_negative_branch (c : ℕ) (h1 : c < 2 ^ 32) (h2 : 2 ^ 31 ≤ c)
    (ref : ℚ) :
    shiftRight31 (toInt32 c) ≠ 1 ∧
    raw_to_voltage (toInt32 c) ref = ((c : ℚ) - 2 ^ 32) * ref / (2 ^ 31 - 1) ∧
    ∀ s : ℤ, -(2 ^ 31) ≤ s → s < 2 ^ 31 → shiftRight31 s ≠ 1 := by
  have hfd : ∀ s : ℤ, -(2 ^ 31) ≤ s → s < 2 ^ 31 → shiftRight31 s ≠ 1 := by
    intro s hlo hhi
    rw [shiftRight31, Int.fdiv_eq_ediv _ (by norm_num)]
    omega
  have hc : toInt32 c = (c : ℤ) - 2 ^ 32 := by
    rw [toInt32, if_neg (by omega)]
  have hm : shiftRight31 (toInt32 c) ≠ 1 := by
    apply hfd
    · rw [hc]; omega
    · rw [hc]; omega
  refine ⟨hm, ?_, hfd⟩
  rw [raw_to_voltage, if_neg hm, hc]
  push_cast
  ring_nf

/-- The scored branch of analyze_chaos, spelled out. -/
theorem analyze_scored_eq (d : List ℚ) (fs : ℚ) (hg : ¬ p2p d < 0.3) :
    analyze_chaos d fs = .scored
      { spectral := score_spectral (spectral_peaks d)
        power := score_power (top3_power d)
        autocorr := score_autocorr (sec_peaks d)
        dynamic := score_dynamic (npStd d)
        total := (score_spectral (spectral_peaks d) : ℝ) + (score_power (top3_power d) : ℝ)
          + (score_autocorr (sec_peaks d) : ℝ) + score_dynamic (npStd d)
        decay := decay_len d
        verdict := assessment ((score_spectral (spectral_peaks d) : ℝ)
          + (score_power (top3_power d) : ℝ) + (score_autocorr (sec_peaks d) : ℝ)
          + score_dynamic (npStd d)) (score_autocorr (sec_peaks d))
          (score_spectral (spectral_peaks d)) (sec_peaks d) (dominant_freq d fs) } := by
  rw [analyze_chaos, if_neg hg]

/-- Witness for the amended C4 at code 0x80000000 with ref = 5. -/
theorem C4_amended_dead_negative_branch_witness :
    shiftRight31 (toInt32 0x80000000) ≠ 1 ∧
    raw_to_voltage (toInt32 0x80000000) 5 = ((0x80000000 : ℚ) - 2 ^ 32) * 5 / (2 ^ 31 - 1) := by
  have h := C4_amended_dead_negative_branch 0x80000000 (by decide) (by decide) 5
  exact ⟨h.1, h.2.1⟩

/-- Claim C2: a peak-to-peak amplitude below 0.3 V short-circuits the analysis:
the outcome is the weak-signal one, the returned score is 0, and no sub-score is
computed (the weak-signal outcome carries none). -/
theorem C2_weak_signal_short_circuit (data : List ℚ) (fs : ℚ) (h : p2p data < 0.3) :
    analyze_chaos data fs = .weakSignal ∧ chaosScore data fs = 0 ∧
    outcomeScores (analyze_chaos data fs) = none := by
  have ha : analyze_chaos data fs = .weakSignal := by rw [analyze_chaos, if_pos h]
  exact ⟨ha, by simp [chaosScore, ha], by simp [outcomeScores, ha]⟩

/-- Witness for C2 at the spec scenario: a series of peak-to-peak exactly 0.1 V
gets total score 0 and the weak-signal outcome. -/
theorem C2_weak_signal_short_circuit_witness :
    p2p [0, 1/10] = 0.1 ∧ p2p [0, 1/10] < 0.3 ∧
    analyze_chaos [0, 1/10] 1 = .weakSignal ∧ chaosScore [0, 1/10] 1 = 0 ∧
    outcomeScores (analyze_chaos [0, 1/10] 1) = none := by
  have h := C2_weak_signal_short_circuit [0, 1/10] 1 (by decide)
  exact ⟨by decide, by decide, h.1, h.2.1, h.2.2⟩

/-- Claim C7: a constant (zero-variance) series has zero peak-to-peak amplitude,
hence takes the weak-signal short circuit: total 0, no spectral or
autocorrelation stage is evaluated, so neither normalisation divides by zero. -/
theorem C7_zero_variance_guarded (data : List ℚ) (fs : ℚ) (h : ∃ c, ∀ x ∈ data, x = c) :
    p2p data = 0 ∧ analyze_chaos data fs = .weakSignal ∧ chaosScore data fs = 0 ∧
    outcomeScores (analyze_chaos data fs) = none := by
  have hp : p2p data = 0 := p2p_const h
  have hlt : p2p data < 0.3 := by rw [hp]; norm_num
  have ha : analyze_chaos data fs = .weakSignal := by rw [analyze_chaos, if_pos hlt]
  exact ⟨hp, ha, by simp [chaosScore, ha], by simp [outcomeScores, ha]⟩

/-- Witness for C7: the constant series [2, 2, 2]. -/
theorem C7_zero_variance_guarded_witness :
    p2p [2, 2, 2] = 0 ∧ analyze_chaos [2, 2, 2] 1 = .weakSignal ∧
    chaosScore [2, 2, 2] 1 = 0 ∧ outcomeScores (analyze_chaos [2, 2, 2] 1) = none :=
  C7_zero_variance_guarded [2, 2, 2] 1 ⟨2, by decide⟩

/-- Claim C3: rubric boundary values: a peak count of exactly 100 scores 15,
exactly 500 scores 30, a top-3 fraction of exactly 0.7 lands in the branch next
to the strict 0.7-branch and scores 5, not 0; and the four branch ranges of the
spectral rubric and of the power rubric partition their domains with no gap or
overlap at any boundary. -/
theorem C3_rubric_boundaries :
    score_spectral 100 = 15 ∧ score_spectral 500 = 30 ∧
    score_power 0.7 = 5 ∧ score_power 0.7 ≠ 0 ∧
    (∀ p : ℕ,
      (p < 100 ∧ ¬(100 ≤ p ∧ p < 500) ∧ ¬(500 ≤ p ∧ p ≤ 2000) ∧ ¬(2000 < p)) ∨
      (¬(p < 100) ∧ (100 ≤ p ∧ p < 500) ∧ ¬(500 ≤ p ∧ p ≤ 2000) ∧ ¬(2000 < p)) ∨
      (¬(p < 100) ∧ ¬(100 ≤ p ∧ p < 500) ∧ (500 ≤ p ∧ p ≤ 2000) ∧ ¬(2000 < p)) ∨
      (¬(p < 100) ∧ ¬(100 ≤ p ∧ p < 500) ∧ ¬(500 ≤ p ∧ p ≤ 2000) ∧ (2000 < p))) ∧
    (∀ t : ℝ,
      ((0.7 : ℝ) < t ∧ ¬((0.1 : ℝ) < t ∧ t ≤ 0.7) ∧ ¬((0.001 : ℝ) ≤ t ∧ t ≤ 0.1) ∧ ¬(t < 0.001)) ∨
      (¬((0.7 : ℝ) < t) ∧ ((0.1 : ℝ) < t ∧ t ≤ 0.7) ∧ ¬((0.001 : ℝ) ≤ t ∧ t ≤ 0.1) ∧ ¬(t < 0.001)) ∨
      (¬((0.7 : ℝ) < t) ∧ ¬((0.1 : ℝ) < t ∧ t ≤ 0.7) ∧ ((0.001 : ℝ) ≤ t ∧ t ≤ 0.1) ∧ ¬(t < 0.001)) ∨
      (¬((0.7 : ℝ) < t) ∧ ¬((0.1 : ℝ) < t ∧ t ≤ 0.7) ∧ ¬((0.001 : ℝ) ≤ t ∧ t ≤ 0.1) ∧ (t < 0.001))) := by
  refine ⟨by decide, by decide, ?_, ?_, ?_, ?_⟩
  · rw [score_power, if_neg (by norm_num), if_pos (by norm_num)]
  · rw [score_power, if_neg (by norm_num), if_pos (by norm_num)]; norm_num
  · intro p; omega
  · intro t
    rcases lt_or_le (0.7 : ℝ) t with h1 | h1
    · refine Or.inl ⟨h1, ?_, ?_, ?_⟩
      · rintro ⟨-, hb⟩; linarith
      · rintro ⟨-, hb⟩; linarith
      · intro hb; linarith
    · rcases lt_or_le (0.1 : ℝ) t with h2 | h2
      · refine Or.inr (Or.inl ⟨by linarith, ⟨h2, h1⟩, ?_, ?_⟩)
        · rintro ⟨-, hb⟩; linarith
        · intro hb; linarith
      · rcases le_or_lt (0.001 : ℝ) t with h3 | h3
        · refine Or.inr (Or.inr (Or.inl ⟨by linarith, ?_, ⟨h3, h2⟩, ?_⟩))
          · rintro ⟨hb, -⟩; linarith
          · intro hb; linarith
        · refine Or.inr (Or.inr (Or.inr ⟨by linarith, ?_, ?_, h3⟩))
          · rintro ⟨hb, -⟩; linarith
          · rintro ⟨hb, -⟩; linarith

set_option maxHeartbeats 2000000 in
/-- Claim C1: with amplitude at least 0.3 V the analysis takes the scored branch;
the total it returns is exactly the sum of the four sub-scores, each sub-score
lies in its rubric range by construction, and the total lies in [0, 100]. -/
theorem C1_total_sum_and_ranges (data : List ℚ) (fs : ℚ) (h : (0.3 : ℚ) ≤ p2p data) :
    ∃ r : ScoredResult, analyze_chaos data fs = .scored r ∧
      r.total = (r.spectral : ℝ) + (r.power : ℝ) + (r.autocorr : ℝ) + r.dynamic ∧
      chaosScore data fs = r.total ∧
      0 ≤ r.spectral ∧ r.spectral ≤ 30 ∧
      0 ≤ r.power ∧ r.power ≤ 25 ∧
      0 ≤ r.autocorr ∧ r.autocorr ≤ 25 ∧
      0 ≤ r.dynamic ∧ r.dynamic ≤ 20 ∧
      0 ≤ r.total ∧ r.total ≤ 100 := by
  have hng : ¬ p2p data < 0.3 := not_lt.mpr h
  have hstd : (0 : ℝ) ≤ npStd data := by rw [npStd]; exact Real.sqrt_nonneg _
  have b1 := score_spectral_bounds (spectral_peaks data)
  have b2 := score_power_bounds (top3_power data)
  have b3 := score_autocorr_bounds (sec_peaks data)
  have b4 := score_dynamic_bounds hstd
  have c1l : (0 : ℝ) ≤ (score_spectral (spectral_peaks data) : ℝ) := by exact_mod_cast b1.1
  have c1u : ((score_spectral (spectral_peaks data) : ℝ)) ≤ 30 := by exact_mod_cast b1.2
  have c2l : (0 : ℝ) ≤ (score_power (top3_power data) : ℝ) := by exact_mod_cast b2.1
  have c2u : ((score_power (top3_power data) : ℝ)) ≤ 25 := by exact_mod_cast b2.2
  have c3l : (0 : ℝ) ≤ (score_autocorr (sec_peaks data) : ℝ) := by exact_mod_cast b3.1
  have c3u : ((score_autocorr (sec_peaks data) : ℝ)) ≤ 25 := by exact_mod_cast b3.2
  refine ⟨_, analyze_scored_eq data fs hng, rfl, ?_, b1.1, b1.2, b2.1, b2.2, b3.1, b3.2,
    b4.1, b4.2, ?_, ?_⟩
  · simp [chaosScore, analyze_scored_eq data fs hng]
  · show (0 : ℝ) ≤ (score_spectral (spectral_peaks data) : ℝ) + (score_power (top3_power data) : ℝ)
      + (score_autocorr (sec_peaks data) : ℝ) + score_dynamic (npStd data)
    linarith [b4.1]
  · show (score_spectral (spectral_peaks data) : ℝ) + (score_power (top3_power data) : ℝ)
      + (score_autocorr (sec_peaks data) : ℝ) + score_dynamic (npStd data) ≤ 100
    linarith [b4.2]

/-- Witness for C1 at the series [0, 1]. -/
theorem C1_total_sum_and_ranges_witness :
    ∃ r : ScoredResult, analyze_chaos [0, 1] 1 = .scored r ∧
      r.total = (r.spectral : ℝ) + (r.power : ℝ) + (r.autocorr : ℝ) + r.dynamic ∧
      chaosScore [0, 1] 1 = r.total ∧
      0 ≤ r.spectral ∧ r.spectral ≤ 30 ∧
      0 ≤ r.power ∧ r.power ≤ 25 ∧
      0 ≤ r.autocorr ∧ r.autocorr ≤ 25 ∧
      0 ≤ r.dynamic ∧ r.dynamic ≤ 20 ∧
      0 ≤ r.total ∧ r.total ≤ 100 :=
  C1_total_sum_and_ranges [0, 1] 1 (by decide)

/-- Claim C8: in the strong-chaos tier (70 ≤ total < 85) the tip is one of
reduce-periodicity, increase-complexity or the nearly-perfect message, selected
deterministically from the sub-scores (aperiodicity under 20 first, then
spectral under 25); and the pipeline verdict is exactly this function of the
computed metrics. -/
theorem C8_strong_tier_tip :
    (∀ (total : ℝ) (sa ss : ℚ) (nsec : ℕ) (df : ℝ), 70 ≤ total → total < 85 →
      ∃ tip, assessment total sa ss nsec df = .strongChaos tip ∧
        (tip = .reducePeriodicity ↔ sa < 20) ∧
        (tip = .increaseComplexity ↔ 20 ≤ sa ∧ ss < 25) ∧
        (tip = .nearlyPerfect ↔ 20 ≤ sa ∧ 25 ≤ ss)) ∧
    (∀ (d : List ℚ) (fs : ℚ) (r : ScoredResult), analyze_chaos d fs = .scored r →
      r.verdict = assessment r.total r.autocorr r.spectral (sec_peaks d) (dominant_freq d fs)) := by
  constructor
  · intro total sa ss nsec df h70 h85
    rw [assessment, if_neg (by linarith), if_pos h70]
    by_cases hsa : sa < 20
    · refine ⟨.reducePeriodicity, by rw [if_pos hsa], ⟨fun _ => hsa, fun _ => rfl⟩,
        iff_of_false (by decide) (fun hc => absurd hsa (not_lt.mpr hc.1)),
        iff_of_false (by decide) (fun hc => absurd hsa (not_lt.mpr hc.1))⟩
    · have hsa2 : (20 : ℚ) ≤ sa := not_lt.mp hsa
      by_cases hss : ss < 25
      · refine ⟨.increaseComplexity, by rw [if_neg hsa, if_pos hss],
          iff_of_false (by decide) (fun hc => absurd hc hsa),
          ⟨fun _ => ⟨hsa2, hss⟩, fun _ => rfl⟩,
          iff_of_false (by decide) (fun hc => absurd hss (not_lt.mpr hc.2))⟩
      · refine ⟨.nearlyPerfect, by rw [if_neg hsa, if_neg hss],
          iff_of_false (by decide) (fun hc => absurd hc hsa),
          iff_of_false (by decide) (fun hc => absurd hc.2 hss),
          ⟨fun _ => ⟨hsa2, not_lt.mp hss⟩, fun _ => rfl⟩⟩
  · intro d fs r hr
    by_cases hg : p2p d < 0.3
    · rw [analyze_chaos, if_pos hg] at hr
      cases hr
    · rw [analyze_scored_eq d fs hg] at hr
      injection hr with hr
      subst hr
      rfl

/-- Witness for C8 at total 75, aperiodicity score 10, spectral score 25. -/
theorem C8_strong_tier_tip_witness :
    ∃ tip, assessment 75 10 25 0 500 = .strongChaos tip ∧
      (tip = .reducePeriodicity ↔ (10 : ℚ) < 20) ∧
      (tip = .increaseComplexity ↔ (20 : ℚ) ≤ 10 ∧ (25 : ℚ) < 25) ∧
      (tip = .nearlyPerfect ↔ (20 : ℚ) ≤ 10 ∧ (25 : ℚ) ≤ 25) :=
  C8_strong_tier_tip.1 75 10 25 0 500 (by norm_num) (by norm_num)

/-- Claim C10: two series agreeing on spectral peak count, top-3 fraction,
secondary-peak count, standard deviation and peak-to-peak amplitude get
identical sub-scores and totals, whatever their decay lengths; with the
dominant frequency also equal, the printed tier and tip agree too. The decay
length feeds no score and no verdict. -/
theorem C10_decay_influences_nothing (d1 d2 : List ℚ) (fs1 fs2 : ℚ)
    (h1 : spectral_peaks d1 = spectral_peaks d2)
    (h2 : top3_power d1 = top3_power d2)
    (h3 : sec_peaks d1 = sec_peaks d2)
    (h4 : npStd d1 = npStd d2)
    (h5 : p2p d1 = p2p d2) :
    chaosScore d1 fs1 = chaosScore d2 fs2 ∧
    outcomeScores (analyze_chaos d1 fs1) = outcomeScores (analyze_chaos d2 fs2) ∧
    (dominant_freq d1 fs1 = dominant_freq d2 fs2 →
      outcomeVerdict (analyze_chaos d1 fs1) = outcomeVerdict (analyze_chaos d2 fs2)) := by
  by_cases hg : p2p d1 < 0.3
  · have ha1 : analyze_chaos d1 fs1 = .weakSignal := by rw [analyze_chaos, if_pos hg]
    have ha2 : analyze_chaos d2 fs2 = .weakSignal := by
      rw [analyze_chaos, if_pos (h5 ▸ hg)]
    refine ⟨?_, ?_, fun _ => ?_⟩ <;> simp [chaosScore, outcomeScores, outcomeVerdict, ha1, ha2]
  · have hg2 : ¬ p2p d2 < 0.3 := h5 ▸ hg
    have ha1 := analyze_scored_eq d1 fs1 hg
    have ha2 := analyze_scored_eq d2 fs2 hg2
    refine ⟨?_, ?_, fun hdf => ?_⟩
    · simp only [chaosScore, ha1, ha2]
      rw [h1, h2, h3, h4]
    · simp only [outcomeScores, ha1, ha2]
      rw [h1, h2, h3, h4]
    · simp only [outcomeVerdict, ha1, ha2]
      rw [h1, h2, h3, h4, hdf]

/-- Witness for C10 with the two runs on the same series. -/
theorem C10_decay_influences_nothing_witness :
    chaosScore [0, 1] 1 = chaosScore [0, 1] 1 ∧
    outcomeScores (analyze_chaos [0, 1] 1) = outcomeScores (analyze_chaos [0, 1] 1) ∧
    (dominant_freq [0, 1] 1 = dominant_freq [0, 1] 1 →
      outcomeVerdict (analyze_chaos [0, 1] 1) = outcomeVerdict (analyze_chaos [0, 1] 1)) :=
  C10_decay_influences_nothing [0, 1] [0, 1] 1 1 rfl rfl rfl rfl rfl

/-! ### Autocorrelation: the correlate-slice-truncate chain computes the
autocorrelation function -/

theorem sum_map_range_eq {M : Type} [AddCommMonoid M] (f : ℕ → M) (n : ℕ) :
    ((List.range n).map f).sum = ∑ i ∈ Finset.range n, f i := by
  induction n with
  | zero => simp
  | succ n ih =>
      rw [List.range_succ, List.map_append, List.sum_append, Finset.sum_range_succ, ih]
      simp

theorem getD_drop_eq (l : List ℚ) (k i : ℕ) :
    (l.drop k).getD i 0 = l.getD (k + i) 0 := by
  rw [List.getD_eq_getElem?_getD, List.getD_eq_getElem?_getD, List.getElem?_drop]

theorem zipWith_mul_sum_eq (c e : List ℚ) :
    (List.zipWith (fun a b => a * b) c e).sum
      = ∑ i ∈ Finset.range (min c.length e.length), c.getD i 0 * e.getD i 0 := by
  induction c generalizing e with
  | nil => simp
  | cons a c ih =>
      cases e with
      | nil => simp
      | cons b e =>
          rw [List.zipWith_cons_cons, List.sum_cons, ih]
          have hlen : min (a :: c).length ((b :: e).length) = min c.length e.length + 1 := by
            simp [List.length_cons, Nat.succ_min_succ]
          rw [hlen, Finset.sum_range_succ']
          simp [add_comm]

theorem acf_eq_sum (d : List ℚ) (k : ℕ) :
    acf d k
      = ∑ i ∈ Finset.range (d.length - k), (dataNorm d).getD i 0 * (dataNorm d).getD (i + k) 0 := by
  have hlen : (dataNorm d).length = d.length := by simp [dataNorm]
  rw [acf, zipWith_mul_sum_eq]
  have hmin : min (dataNorm d).length ((dataNorm d).drop k).length = d.length - k := by
    rw [List.length_drop, hlen]
    omega
  rw [hmin]
  refine Finset.sum_congr rfl ?_
  intro i _
  rw [getD_drop_eq, add_comm k i]

theorem autocorrRaw_length (d : List ℚ) : (autocorrRaw d).length = max_lag d.length := by
  rw [autocorrRaw, List.length_take, List.length_drop]
  have h1 : (correlateFull (dataNorm d) (dataNorm d)).length = d.length + d.length - 1 := by
    rw [correlateFull, List.length_map, List.length_range]
    simp [dataNorm]
  rw [h1, max_lag]
  omega

theorem autocorrRaw_getElem (d : List ℚ) (i : ℕ) (hi : i < max_lag d.length) :
    (autocorrRaw d)[i]? = some (acf d i) := by
  have hc : (dataNorm d).length = d.length := by simp [dataNorm]
  have hN4 : 4 ≤ d.length := by
    rw [max_lag] at hi
    omega
  have hN : 1 ≤ d.length := by omega
  have hiN : i < d.length := by
    rw [max_lag] at hi
    omega
  rw [autocorrRaw, List.getElem?_take, if_pos hi, List.getElem?_drop, correlateFull,
    List.getElem?_map, List.getElem?_range (by rw [hc]; omega), Option.map_some']
  congr 1
  rw [sum_map_range_eq]
  have hterm : ∀ n ∈ Finset.range (dataNorm d).length,
      getQ (dataNorm d)
          ((n : ℤ) + ((d.length - 1 + i : ℕ) : ℤ) - (((dataNorm d).length : ℤ) - 1)) *
        getQ (dataNorm d) (n : ℤ)
        = (dataNorm d).getD (n + i) 0 * (dataNorm d).getD n 0 := by
    intro n _
    have hidx : ((n : ℤ) + ((d.length - 1 + i : ℕ) : ℤ) - (((dataNorm d).length : ℤ) - 1))
        = ((n + i : ℕ) : ℤ) := by
      rw [hc]
      push_cast [Nat.cast_sub hN]
      ring
    rw [hidx, getQ, if_pos (Int.natCast_nonneg _), Int.toNat_natCast,
      getQ, if_pos (Int.natCast_nonneg _), Int.toNat_natCast]
  rw [Finset.sum_congr rfl hterm, hc]
  have hacf : acf d i
      = ∑ j ∈ Finset.range (d.length - i), (dataNorm d).getD (j + i) 0 * (dataNorm d).getD j 0 := by
    rw [acf_eq_sum]
    exact Finset.sum_congr rfl (fun j _ => mul_comm _ _)
  rw [hacf]
  refine (Finset.sum_subset (Finset.range_subset.mpr (by omega)) ?_).symm
  intro x hx hnx
  simp only [Finset.mem_range] at hx hnx
  rw [List.getD_eq_default _ _ (by rw [hc]; omega)]
  ring

theorem autocorrRaw_eq (d : List ℚ) :
    autocorrRaw d = (List.range (max_lag d.length)).map (fun k => acf d k) := by
  apply List.ext_getElem?
  intro i
  by_cases hi : i < max_lag d.length
  · rw [autocorrRaw_getElem d i hi, List.getElem?_map, List.getElem?_range hi, Option.map_some']
  · rw [List.getElem?_eq_none, List.getElem?_eq_none]
    · rw [List.length_map, List.length_range]
      omega
    · rw [autocorrRaw_length]
      omega

theorem exists_ne_mean (d : List ℚ) (hnc : ∃ a ∈ d, ∃ b ∈ d, a ≠ b) :
    ∃ x ∈ d, x ≠ npMean d := by
  rcases hnc with ⟨a, ha, b, hb, hab⟩
  by_cases ham : a = npMean d
  · exact ⟨b, hb, fun hbm => hab (by rw [ham, hbm])⟩
  · exact ⟨a, ha, ham⟩

theorem acf_zero_pos (d : List ℚ) (hnc : ∃ a ∈ d, ∃ b ∈ d, a ≠ b) : 0 < acf d 0 := by
  rcases exists_ne_mean d hnc with ⟨x, hx, hxm⟩
  rcases List.mem_iff_getElem.mp hx with ⟨i, hilen, hxi⟩
  rw [acf_eq_sum]
  simp only [Nat.sub_zero, Nat.add_zero]
  apply Finset.sum_pos'
  · intro j _
    exact mul_self_nonneg _
  · refine ⟨i, Finset.mem_range.mpr hilen, ?_⟩
    have hilen2 : i < (dataNorm d).length := by
      rw [dataNorm, List.length_map]
      exact hilen
    have hv : (dataNorm d).getD i 0 = x - npMean d := by
      rw [List.getD_eq_getElem _ _ hilen2]
      simp only [dataNorm, List.getElem_map]
      rw [hxi]
    rw [hv]
    exact mul_self_pos.mpr (sub_ne_zero.mpr hxm)

theorem autocorrNorm_length (d : List ℚ) : (autocorrNorm d).length = max_lag d.length := by
  rw [autocorrNorm, List.length_map, autocorrRaw_length]

theorem autocorrNorm_head (d : List ℚ) (h4 : 4 ≤ d.length)
    (hnc : ∃ a ∈ d, ∃ b ∈ d, a ≠ b) : (autocorrNorm d).getD 0 0 = 1 := by
  have hpos := acf_zero_pos d hnc
  have hlag : 0 < max_lag d.length := by
    rw [max_lag]
    omega
  have h0 : (autocorrRaw d).getD 0 0 = acf d 0 := by
    rw [List.getD_eq_getElem?_getD, autocorrRaw_getElem d 0 hlag]
    rfl
  rw [autocorrNorm, List.getD_eq_getElem?_getD, List.getElem?_map,
    autocorrRaw_getElem d 0 hlag, Option.map_some', Option.getD_some, h0,
    div_self hpos.ne.symm]

theorem findIdx?_shift (p : ℚ → Bool) (l : List ℚ) (i : ℕ) :
    l.findIdx? p (i + 1) = (l.findIdx? p i).map (fun j => j + 1) := by
  induction l generalizing i with
  | nil => simp
  | cons x xs ih =>
      rw [List.findIdx?_cons, List.findIdx?_cons]
      by_cases hp : p x
      · rw [if_pos hp, if_pos hp, Option.map_some']
      · rw [if_neg hp, if_neg hp, ih]

theorem findIdx?_none_spec (p : ℚ → Bool) (l : List ℚ) (h : l.findIdx? p = none) :
    ∀ j, j < l.length → p (l.getD j 0) = false := by
  induction l with
  | nil => intro j hj; simp at hj
  | cons x xs ih =>
      rw [List.findIdx?_cons] at h
      by_cases hp : p x
      · rw [if_pos hp] at h
        cases h
      · rw [if_neg hp, findIdx?_shift, Option.map_eq_none'] at h
        intro j hj
        cases j with
        | zero => simpa [List.getD_cons_zero] using hp
        | succ j =>
            rw [List.getD_cons_succ]
            exact ih h j (by simpa [List.length_cons] using hj)

theorem findIdx?_some_spec (p : ℚ → Bool) (l : List ℚ) (i : ℕ) (h : l.findIdx? p = some i) :
    i < l.length ∧ p (l.getD i 0) = true ∧ ∀ j, j < i → p (l.getD j 0) = false := by
  induction l generalizing i with
  | nil => simp at h
  | cons x xs ih =>
      rw [List.findIdx?_cons] at h
      by_cases hp : p x
      · rw [if_pos hp] at h
        injection h with h
        subst h
        exact ⟨by simp, by simpa using hp, fun j hj => absurd hj (by omega)⟩
      · rw [if_neg hp, findIdx?_shift] at h
        rcases Option.map_eq_some'.mp h with ⟨i0, hi0, hii⟩
        subst hii
        obtain ⟨ha, hb, hc⟩ := ih i0 hi0
        refine ⟨by simpa [List.length_cons] using Nat.succ_lt_succ ha,
          by simpa [List.getD_cons_succ] using hb, ?_⟩
        intro j hj
        cases j with
        | zero => simpa [List.getD_cons_zero] using hp
        | succ j =>
            rw [List.getD_cons_succ]
            exact hc j (by omega)

theorem decay_len_spec (d : List ℚ) :
    (decay_len d < max_lag d.length ∧ (autocorrNorm d).getD (decay_len d) 0 < 0.5 ∧
      ∀ j, j < decay_len d → (0.5 : ℚ) ≤ (autocorrNorm d).getD j 0) ∨
    (decay_len d = max_lag d.length ∧
      ∀ j, j < max_lag d.length → (0.5 : ℚ) ≤ (autocorrNorm d).getD j 0) := by
  cases hfi : (autocorrNorm d).findIdx? (fun x => decide (x < 0.5)) with
  | none =>
      right
      have hd : decay_len d = max_lag d.length := by rw [decay_len, hfi]
      refine ⟨hd, ?_⟩
      intro j hj
      have hjl : j < (autocorrNorm d).length := by rw [autocorrNorm_length]; exact hj
      have := findIdx?_none_spec _ _ hfi j hjl
      simpa [not_lt] using this
  | some i =>
      left
      have hd : decay_len d = i := by rw [decay_len, hfi]
      obtain ⟨ha, hb, hc⟩ := findIdx?_some_spec _ _ _ hfi
      rw [autocorrNorm_length] at ha
      refine ⟨hd ▸ ha, hd ▸ (by simpa using hb), ?_⟩
      intro j hj
      have := hc j (hd ▸ hj)
      simpa [not_lt] using this

/-! ### Secondary peaks: the scan of the slice beyond lag 10 counts the local
maxima of the full curve at lags 11 and up -/

theorem plateauEnd_drop (a : List ℚ) (k i : ℕ) :
    plateauEnd (a.drop k) i + k = plateauEnd a (k + i) := by
  rw [plateauEnd, plateauEnd, getD_drop_eq, List.drop_drop, ← Nat.add_assoc k i 1]
  omega

theorem isPeakLeftEdge_drop (a : List ℚ) (k i : ℕ) (hi : 0 < i) :
    isPeakLeftEdge (a.drop k) i = isPeakLeftEdge a (k + i) := by
  have hP := plateauEnd_drop a k i
  have e1 : (a.drop k).getD (i - 1) 0 = a.getD (k + i - 1) 0 := by
    rw [getD_drop_eq]
    congr 1
    omega
  have e2 : (a.drop k).getD i 0 = a.getD (k + i) 0 := getD_drop_eq a k i
  have e3 : (a.drop k).getD (plateauEnd (a.drop k) i + 1) 0
      = a.getD (plateauEnd a (k + i) + 1) 0 := by
    rw [getD_drop_eq]
    congr 1
    omega
  rw [isPeakLeftEdge, isPeakLeftEdge, e1, e2, e3, List.length_drop,
    decide_eq_decide.mpr (show 0 < i ↔ 0 < k + i by omega),
    decide_eq_decide.mpr (show i < a.length - k ↔ k + i < a.length by omega),
    decide_eq_decide.mpr
      (show plateauEnd (a.drop k) i + 1 < a.length - k
        ↔ plateauEnd a (k + i) + 1 < a.length by omega)]

theorem numPeaks_eq_count {α : Type} [DecidableEq α] [LinearOrder α] [Zero α] (x : List α) (h : α) :
    numPeaks x h = ((List.range x.length).filter
      (fun l => isPeakLeftEdge x l && decide (h ≤ x.getD l 0))).length := by
  rw [numPeaks, peakHeights, List.filter_map, List.length_map, List.filter_filter]
  congr 1
  apply List.filter_congr
  intro a _
  simp [Function.comp, Bool.and_comm]

theorem sec_peaks_eq_spec (d : List ℚ) : sec_peaks d = specSecPeaks d := by
  rw [sec_peaks, numPeaks_eq_count, specSecPeaks, ← List.countP_eq_length_filter,
    ← List.countP_eq_length_filter, List.length_drop]
  rcases le_or_lt (autocorrNorm d).length 10 with hlen | hlen
  · have h1 : (autocorrNorm d).length - 10 = 0 := by omega
    rw [h1]
    simp only [List.range_zero, List.countP_nil]
    symm
    rw [List.countP_eq_zero]
    intro l hl
    have hl11 : l < 11 := by
      have := List.mem_range.mp hl
      omega
    simp [show ¬ (11 ≤ l) by omega]
  · have hsplit : (autocorrNorm d).length = 10 + ((autocorrNorm d).length - 10) := by omega
    conv_rhs => rw [hsplit]
    rw [List.range_add, List.countP_append, List.countP_map]
    have hz : List.countP
        (fun l => decide (11 ≤ l) && isPeakLeftEdge (autocorrNorm d) l &&
          decide ((0.3 : ℚ) ≤ (autocorrNorm d).getD l 0)) (List.range 10) = 0 := by
      rw [List.countP_eq_zero]
      intro l hl
      have hl10 : l < 10 := List.mem_range.mp hl
      simp [show ¬ (11 ≤ l) by omega]
    rw [hz, zero_add]
    apply List.countP_congr
    intro x hx
    have hxlt : x < (autocorrNorm d).length - 10 := List.mem_range.mp hx
    simp only [Function.comp]
    cases Nat.eq_zero_or_pos x with
    | inl h0 =>
        subst h0
        constructor
        · intro hcon
          rw [show isPeakLeftEdge ((autocorrNorm d).drop 10) 0 = false by
              rw [isPeakLeftEdge]; simp] at hcon
          simp at hcon
        · intro hcon
          simp [show ¬ (11 ≤ 10 + 0) by omega] at hcon
    | inr hpos =>
        rw [isPeakLeftEdge_drop _ _ _ hpos, getD_drop_eq,
          show (decide (11 ≤ 10 + x)) = true from decide_eq_true (by omega)]
        simp [Bool.and_assoc]

/-- Claim C5 as amended: for every non-constant series of length at least 4
(shorter series give the autocorrelation stage an empty curve), the periodicity
analysis truncates the non-negative-lag autocorrelation to
max_lag = min(2000, N/4) entries, which are exactly the autocorrelation values
of the mean-centred series; the normalised curve has lag-0 value exactly 1; the
decay length is the first lag whose normalised value drops below 0.5, or
max_lag when none does within the cap; and the secondary-peak count is exactly
the number of local maxima of the normalised curve beyond lag 10 whose height
is at least 0.3 (the counterexample forces at least in place of exceeds: the
scipy height condition keeps a peak of height exactly 0.3). -/
theorem C5_periodicity_pipeline (d : List ℚ) (h4 : 4 ≤ d.length)
    (hnc : ∃ a ∈ d, ∃ b ∈ d, a ≠ b) :
    (autocorrRaw d).length = min 2000 (d.length / 4) ∧
    autocorrRaw d = (List.range (max_lag d.length)).map (fun k => acf d k) ∧
    (autocorrNorm d).getD 0 0 = 1 ∧
    ((decay_len d < max_lag d.length ∧ (autocorrNorm d).getD (decay_len d) 0 < 0.5 ∧
        ∀ j, j < decay_len d → (0.5 : ℚ) ≤ (autocorrNorm d).getD j 0) ∨
      (decay_len d = max_lag d.length ∧
        ∀ j, j < max_lag d.length → (0.5 : ℚ) ≤ (autocorrNorm d).getD j 0)) ∧
    sec_peaks d = specSecPeaks d :=
  ⟨by rw [autocorrRaw_length, max_lag], autocorrRaw_eq d, autocorrNorm_head d h4 hnc,
    decay_len_spec d, sec_peaks_eq_spec d⟩

/-- Witness for C5 at the non-constant series [0, 1, 0, 1]. -/
theorem C5_periodicity_pipeline_witness :
    (autocorrRaw [0, 1, 0, 1]).length = min 2000 (([0, 1, 0, 1] : List ℚ).length / 4) ∧
    autocorrRaw [0, 1, 0, 1] = (List.range (max_lag ([0, 1, 0, 1] : List ℚ).length)).map
      (fun k => acf [0, 1, 0, 1] k) ∧
    (autocorrNorm [0, 1, 0, 1]).getD 0 0 = 1 ∧
    ((decay_len [0, 1, 0, 1] < max_lag ([0, 1, 0, 1] : List ℚ).length ∧
        (autocorrNorm [0, 1, 0, 1]).getD (decay_len [0, 1, 0, 1]) 0 < 0.5 ∧
        ∀ j, j < decay_len [0, 1, 0, 1] → (0.5 : ℚ) ≤ (autocorrNorm [0, 1, 0, 1]).getD j 0) ∨
      (decay_len [0, 1, 0, 1] = max_lag ([0, 1, 0, 1] : List ℚ).length ∧
        ∀ j, j < max_lag ([0, 1, 0, 1] : List ℚ).length →
          (0.5 : ℚ) ≤ (autocorrNorm [0, 1, 0, 1]).getD j 0)) ∧
    sec_peaks [0, 1, 0, 1] = specSecPeaks [0, 1, 0, 1] :=
  C5_periodicity_pipeline [0, 1, 0, 1] (by decide) ⟨0, by decide, 1, by decide, by decide⟩

set_option maxRecDepth 1000000 in
/-- Claim C5 counterexample against the claim as written: on cexSeries the
normalised autocorrelation has a local maximum of height exactly 0.3 at lag 11;
the code (scipy find_peaks with height=0.3, an at-least condition) counts it,
so the secondary-peak count is 1, while the count of local maxima beyond lag 10
whose height strictly exceeds 0.3 is 0. The analysis therefore does not count
exactly the peaks exceeding 0.3, refuting the claim at this input. -/
theorem C5_counterexample :
    (autocorrNorm cexSeries).getD 11 0 = 0.3 ∧
    sec_peaks cexSeries = 1 ∧
    specSecPeaksStrict cexSeries = 0 ∧
    ¬ (sec_peaks cexSeries = specSecPeaksStrict cexSeries) :=
  ⟨by decide, by decide, by decide, by decide⟩

/-! ### Spectral stage -/

theorem le_foldl_max {α : Type} [LinearOrder α] (l : List α) (a : α) :
    a ≤ l.foldl max a := by
  induction l generalizing a with
  | nil => exact le_refl a
  | cons x xs ih => exact le_trans (le_max_left a x) (ih (max a x))

theorem mem_le_foldl_max {α : Type} [LinearOrder α] (l : List α) (a : α) :
    ∀ x ∈ l, x ≤ l.foldl max a := by
  induction l generalizing a with
  | nil => simp
  | cons y ys ih =>
      intro x hx
      rw [List.foldl_cons]
      rcases List.mem_cons.mp hx with h | h
      · subst h
        exact le_trans (le_max_right a x) (le_foldl_max ys _)
      · exact ih _ x h

theorem foldl_max_eq_or_mem {α : Type} [LinearOrder α] (l : List α) (a : α) :
    l.foldl max a = a ∨ l.foldl max a ∈ l := by
  induction l generalizing a with
  | nil => left; rfl
  | cons x xs ih =>
      rw [List.foldl_cons]
      rcases ih (max a x) with h | h
      · rcases max_cases a x with ⟨hm, -⟩ | ⟨hm, -⟩
        · left
          rw [h, hm]
        · right
          rw [h, hm]
          exact List.mem_cons_self x xs
      · right
        exact List.mem_cons_of_mem x h

theorem npMaxR_mem (l : List ℝ) (hl : l ≠ []) : npMaxR l ∈ l := by
  rw [npMaxR]
  rcases foldl_max_eq_or_mem l l.headI with h | h
  · rw [h]
    cases l with
    | nil => exact absurd rfl hl
    | cons x xs => simp
  · exact h

theorem npMaxR_is_ub (l : List ℝ) : ∀ x ∈ l, x ≤ npMaxR l := by
  intro x hx
  exact mem_le_foldl_max l l.headI x hx

theorem npArgmax_spec (l : List ℝ) (hl : l ≠ []) :
    npArgmax l < l.length ∧ l.getD (npArgmax l) 0 = npMaxR l ∧
    ∀ j, j < npArgmax l → l.getD j 0 < npMaxR l := by
  have hmem : npMaxR l ∈ l := npMaxR_mem l hl
  have hex : ∃ x ∈ l, (fun x => decide (npMaxR l ≤ x)) x = true := ⟨npMaxR l, hmem, by simp⟩
  have hlt : l.findIdx (fun x => decide (npMaxR l ≤ x)) < l.length :=
    List.findIdx_lt_length_of_exists hex
  have hval : npMaxR l ≤ l.getD (npArgmax l) 0 := by
    have h1 := @List.findIdx_getElem _ (fun x => decide (npMaxR l ≤ x)) l hlt
    rw [npArgmax, List.getD_eq_getElem _ _ hlt]
    exact of_decide_eq_true h1
  have hub : l.getD (npArgmax l) 0 ≤ npMaxR l := by
    rw [npArgmax, List.getD_eq_getElem _ _ hlt]
    exact npMaxR_is_ub l _ (List.getElem_mem _)
  refine ⟨hlt, le_antisymm hub hval, ?_⟩
  intro j hj
  rw [npArgmax] at hj
  have h2 := @List.not_of_lt_findIdx _ (fun x => decide (npMaxR l ≤ x)) l j hj
  rw [List.getD_eq_getElem _ _ (lt_trans hj hlt)]
  have h3 : ¬ (npMaxR l ≤ l[j]) := by simpa using h2
  exact not_le.mp h3

theorem powerSpectrum_length (d : List ℚ) : (powerSpectrum d).length = d.length / 2 := by
  rw [powerSpectrum, List.length_map, List.length_range]

theorem powerSpectrum_getD (d : List ℚ) (k : ℕ) (hk : k < d.length / 2) :
    (powerSpectrum d).getD k 0 = 2 / (d.length : ℝ) * Complex.abs (dft (dataNorm d) k) := by
  rw [powerSpectrum, List.getD_eq_getElem?_getD, List.getElem?_map, List.getElem?_range hk,
    Option.map_some', Option.getD_some]

theorem npSortR_perm (l : List ℝ) : (npSortR l).Perm l := List.mergeSort_perm l _

theorem npSortR_pairwise (l : List ℝ) : List.Pairwise (· ≤ ·) (npSortR l) := by
  have h : List.Pairwise (fun a b : ℝ => (decide (a ≤ b)) = true) (npSortR l) := by
    rw [npSortR]
    exact List.sorted_mergeSort
      (fun a b c hab hbc => by
        simp only [decide_eq_true_eq] at hab hbc ⊢
        exact le_trans hab hbc)
      (fun a b => by simpa using le_total a b) l
  exact h.imp (fun hab => of_decide_eq_true hab)

theorem top3Bins_spec (d : List ℚ) :
    (((npSortR (powerSpectrum d)).take ((powerSpectrum d).length - 3) ++ top3Bins d).Perm
        (powerSpectrum d)) ∧
    (top3Bins d).length = min 3 (powerSpectrum d).length ∧
    (∀ x ∈ (npSortR (powerSpectrum d)).take ((powerSpectrum d).length - 3),
      ∀ y ∈ top3Bins d, x ≤ y) ∧
    top3_power d = (top3Bins d).sum / (powerSpectrum d).sum := by
  refine ⟨?_, ?_, ?_, rfl⟩
  · rw [top3Bins, List.take_append_drop]
    exact npSortR_perm _
  · rw [top3Bins, List.length_drop, npSortR, List.length_mergeSort]
    omega
  · have h := npSortR_pairwise (powerSpectrum d)
    rw [← List.take_append_drop ((powerSpectrum d).length - 3)
      (npSortR (powerSpectrum d)), List.pairwise_append] at h
    exact h.2.2

/-- Claim C6: the spectral stage: the one-sided spectrum is 2/N times the
magnitude of the Fourier transform of the mean-centred series over the first
N/2 bins; the dominant frequency is the first bin of maximum power, reported as
bin * fs / N; the peak count is the number of local maxima of the power curve
of height at least 10 percent of the maximum; and the top-3 concentration is
the sum of the three largest bins divided by the total power. -/
theorem C6_spectral_stage (d : List ℚ) (fs : ℚ) (h2 : 2 ≤ d.length) :
    (powerSpectrum d).length = d.length / 2 ∧
    (∀ k, k < d.length / 2 →
      (powerSpectrum d).getD k 0 = 2 / (d.length : ℝ) * Complex.abs (dft (dataNorm d) k)) ∧
    npArgmax (powerSpectrum d) < (powerSpectrum d).length ∧
    (powerSpectrum d).getD (npArgmax (powerSpectrum d)) 0 = npMaxR (powerSpectrum d) ∧
    (∀ j, j < npArgmax (powerSpectrum d) →
      (powerSpectrum d).getD j 0 < npMaxR (powerSpectrum d)) ∧
    dominant_freq d fs = (npArgmax (powerSpectrum d) : ℝ) * (fs : ℝ) / (d.length : ℝ) ∧
    spectral_peaks d = ((List.range (powerSpectrum d).length).filter
      (fun l => isPeakLeftEdge (powerSpectrum d) l &&
        decide (npMaxR (powerSpectrum d) * 0.1 ≤ (powerSpectrum d).getD l 0))).length ∧
    (((npSortR (powerSpectrum d)).take ((powerSpectrum d).length - 3) ++ top3Bins d).Perm
        (powerSpectrum d)) ∧
    (top3Bins d).length = min 3 (powerSpectrum d).length ∧
    (∀ x ∈ (npSortR (powerSpectrum d)).take ((powerSpectrum d).length - 3),
      ∀ y ∈ top3Bins d, x ≤ y) ∧
    top3_power d = (top3Bins d).sum / (powerSpectrum d).sum := by
  have hne : powerSpectrum d ≠ [] := by
    intro hcon
    have := powerSpectrum_length d
    rw [hcon] at this
    simp at this
    omega
  obtain ⟨ha1, ha2, ha3⟩ := npArgmax_spec (powerSpectrum d) hne
  obtain ⟨hb1, hb2, hb3, hb4⟩ := top3Bins_spec d
  exact ⟨powerSpectrum_length d, fun k hk => powerSpectrum_getD d k hk, ha1, ha2, ha3, rfl,
    numPeaks_eq_count _ _, hb1, hb2, hb3, hb4⟩

/-- Witness for C6 at the two-sample series [0, 1]. -/
theorem C6_spectral_stage_witness :
    (powerSpectrum [0, 1]).length = ([0, 1] : List ℚ).length / 2 ∧
    (∀ k, k < ([0, 1] : List ℚ).length / 2 →
      (powerSpectrum [0, 1]).getD k 0
        = 2 / (([0, 1] : List ℚ).length : ℝ) * Complex.abs (dft (dataNorm [0, 1]) k)) ∧
    npArgmax (powerSpectrum [0, 1]) < (powerSpectrum [0, 1]).length ∧
    (powerSpectrum [0, 1]).getD (npArgmax (powerSpectrum [0, 1])) 0
      = npMaxR (powerSpectrum [0, 1]) ∧
    (∀ j, j < npArgmax (powerSpectrum [0, 1]) →
      (powerSpectrum [0, 1]).getD j 0 < npMaxR (powerSpectrum [0, 1])) ∧
    dominant_freq [0, 1] 1
      = (npArgmax (powerSpectrum [0, 1]) : ℝ) * ((1 : ℚ) : ℝ) / (([0, 1] : List ℚ).length : ℝ) ∧
    spectral_peaks [0, 1] = ((List.range (powerSpectrum [0, 1]).length).filter
      (fun l => isPeakLeftEdge (powerSpectrum [0, 1]) l &&
        decide (npMaxR (powerSpectrum [0, 1]) * 0.1 ≤ (powerSpectrum [0, 1]).getD l 0))).length ∧
    (((npSortR (powerSpectrum [0, 1])).take ((powerSpectrum [0, 1]).length - 3)
        ++ top3Bins [0, 1]).Perm (powerSpectrum [0, 1])) ∧
    (top3Bins [0, 1]).length = min 3 (powerSpectrum [0, 1]).length ∧
    (∀ x ∈ (npSortR (powerSpectrum [0, 1])).take ((powerSpectrum [0, 1]).length - 3),
      ∀ y ∈ top3Bins [0, 1], x ≤ y) ∧
    top3_power [0, 1] = (top3Bins [0, 1]).sum / (powerSpectrum [0, 1]).sum :=
  C6_spectral_stage [0, 1] 1 (by decide)

end ChaosDiagnostic

